import Mathlib

/-!
Verification development for the dd-search repository.

The repository is a Rust CLI that queries the Datadog log/span search API and
streams results as newline-delimited JSON.  The development below gives a
shallow embedding of:

* the time-expression parser/validator (module `time`, modelled from the spec
  since only its tests and callers appear under `src/`),
* the pagination cursor controller and streaming search façade (module
  `client`, likewise modelled from the spec),
* the NDJSON output writer (`src/output.rs`),
* the application error type and exit codes (`src/error.rs`),
* configuration loading from environment variables (`src/config.rs`).

Instants are epoch milliseconds as `Int`; durations are milliseconds as `Nat`.
-/

/-! ## Time expression parser / validator -/

/-- Modelled from the spec: the `time` module of the repository (referenced by
the integration tests as `time::is_valid_time_range` etc.) is not present under
`src/`; its data model follows spec section 3: a `TimeExpression` is a tagged
union of a relative offset, an absolute instant, or epoch milliseconds.  The
relative form stores the backward offset from "now" in milliseconds; the
absolute form stores the resolved instant in epoch milliseconds. -/
inductive TimeExpression where
  | Relative (offsetMillis : Nat)
  | Absolute (instantMillis : Int)
  | EpochMillis (millis : Int)
deriving DecidableEq, Repr

/-- Decides whether a character is an ASCII decimal digit. -/
def isDigitChar (c : Char) : Bool := decide ('0' ≤ c) && decide (c ≤ '9')

/-- Numeric value of a decimal digit character. -/
def digitVal (c : Char) : Nat := c.toNat - 48

/-- Value of a string of decimal digits, most significant first. -/
def natOfDigits (l : List Char) : Nat := l.foldl (fun a c => 10 * a + digitVal c) 0

/-- Modelled from the spec: milliseconds per time unit; unit ∈
{s, m, h, d, w, mo} with months approximated as 30 days (spec section 4.1).
Input is the already-lowercased unit suffix of a relative expression. -/
def unitMillis : List Char → Option Nat
  | ['s'] => some 1000
  | ['m'] => some 60000
  | ['h'] => some 3600000
  | ['d'] => some 86400000
  | ['w'] => some 604800000
  | ['m', 'o'] => some 2592000000
  | _ => none

/-- Modelled from the spec: parses the part after `"now-"` of a relative time
expression: a non-empty run of digits followed by a unit.  Returns the offset
in milliseconds. -/
def parseOffset (l : List Char) : Option Nat :=
  if l.takeWhile isDigitChar = [] then none
  else
    (unitMillis (l.dropWhile isDigitChar)).map
      (fun m => natOfDigits (l.takeWhile isDigitChar) * m)

/-- Modelled from the spec: recognizes a relative time expression over the
already-lowercased character list: exactly `"now"`, or `"now-<N><unit>"`
(spec section 4.1).  Returns the backward offset in milliseconds. -/
def parseRelative (l : List Char) : Option Nat :=
  match l with
  | ['n', 'o', 'w'] => some 0
  | 'n' :: 'o' :: 'w' :: '-' :: rest => parseOffset rest
  | _ => none

/-- Number of days from 1970-01-01 to the given civil date (proleptic
Gregorian calendar), standard days-from-civil computation. -/
def daysFromCivil (y : Int) (m d : Nat) : Int :=
  let yy : Int := if m ≤ 2 then y - 1 else y
  let era : Int := (if 0 ≤ yy then yy else yy - 399) / 400
  let yoe : Int := yy - era * 400
  let mp : Nat := (m + 9) % 12
  let doy : Nat := (153 * mp + 2) / 5 + d - 1
  let doe : Int := yoe * 365 + yoe / 4 - yoe / 100 + (doy : Int)
  era * 146097 + doe - 719468

/-- Number of days in a month of the proleptic Gregorian calendar. -/
def daysInMonth (y : Int) (m : Nat) : Nat :=
  if m = 2 then
    if y % 4 = 0 ∧ (y % 100 ≠ 0 ∨ y % 400 = 0) then 29 else 28
  else if m = 4 ∨ m = 6 ∨ m = 9 ∨ m = 11 then 30
  else 31

/-- Milliseconds contributed by a fractional-seconds digit string. -/
def fracMillis (ds : List Char) : Nat := natOfDigits ds * 1000 / 10 ^ ds.length

/-- Modelled from the spec: parses a trailing UTC-offset designator
(`Z`, `z`, or `±HH:MM`), returning the offset in minutes east of UTC. -/
def parseTzOffset : List Char → Option Int
  | ['Z'] => some 0
  | ['z'] => some 0
  | [sign, h1, h2, ':', m1, m2] =>
    if (sign = '+' ∨ sign = '-') ∧ [h1, h2, m1, m2].all isDigitChar then
      let hh := natOfDigits [h1, h2]
      let mm := natOfDigits [m1, m2]
      if hh ≤ 23 ∧ mm ≤ 59 then
        let v : Int := (hh * 60 + mm : Nat)
        some (if sign = '-' then -v else v)
      else none
    else none
  | _ => none

/-- Modelled from the spec: parses the time-of-day-plus-offset part of an
absolute timestamp (`HH:MM:SS[.frac](Z|±HH:MM)`), returning milliseconds past
midnight adjusted to UTC. -/
def parseTimePart (l : List Char) : Option Int :=
  match l with
  | h1 :: h2 :: ':' :: m1 :: m2 :: ':' :: s1 :: s2 :: rest =>
    if [h1, h2, m1, m2, s1, s2].all isDigitChar then
      let hh := natOfDigits [h1, h2]
      let mm := natOfDigits [m1, m2]
      let ss := natOfDigits [s1, s2]
      if hh ≤ 23 ∧ mm ≤ 59 ∧ ss ≤ 59 then
        let fracRest :=
          match rest with
          | '.' :: fr =>
            let fd := fr.takeWhile isDigitChar
            if fd = [] then none else some (fracMillis fd, fr.dropWhile isDigitChar)
          | _ => some (0, rest)
        match fracRest with
        | some (fms, tz) =>
          match parseTzOffset tz with
          | some tzMin =>
            some ((hh * 3600000 + mm * 60000 + ss * 1000 + fms : Nat) - tzMin * 60000)
          | none => none
        | none => none
      else none
    else none
  | _ => none

/-- Modelled from the spec: parses an absolute timestamp in an unambiguous
date-time-with-offset format (date, time, UTC offset all present; fractional
seconds permitted — spec section 4.1), i.e. RFC 3339
`YYYY-MM-DDTHH:MM:SS[.frac](Z|±HH:MM)`.  Returns epoch milliseconds. -/
def parseAbsolute (l : List Char) : Option Int :=
  match l with
  | y1 :: y2 :: y3 :: y4 :: '-' :: m1 :: m2 :: '-' :: d1 :: d2 :: t :: rest =>
    if [y1, y2, y3, y4, m1, m2, d1, d2].all isDigitChar ∧ (t = 'T' ∨ t = 't') then
      let year := natOfDigits [y1, y2, y3, y4]
      let month := natOfDigits [m1, m2]
      let day := natOfDigits [d1, d2]
      if 1 ≤ month ∧ month ≤ 12 ∧ 1 ≤ day ∧ day ≤ daysInMonth year month then
        match parseTimePart rest with
        | some dayMs => some (daysFromCivil year month day * 86400000 + dayMs)
        | none => none
      else none
    else none
  | _ => none

/-- Modelled from the spec: `classify(s)` of the missing `time` module (spec
section 4.1).  Recognizes, in order: a relative expression (case-insensitive on
the unit and on the literal `now`), a string of only decimal digits as epoch
milliseconds (which must fit a 64-bit signed range), or an absolute timestamp.
`none` is the spec's `Invalid`. -/
def classify (s : String) : Option TimeExpression :=
  match parseRelative (s.data.map Char.toLower) with
  | some off => some (TimeExpression.Relative off)
  | none =>
    if s.data ≠ [] ∧ s.data.all isDigitChar then
      if natOfDigits s.data ≤ 9223372036854775807 then
        some (TimeExpression.EpochMillis (Int.ofNat (natOfDigits s.data)))
      else none
    else (parseAbsolute s.data).map TimeExpression.Absolute

/-- Modelled from the spec: `resolve(expr, now)` — relative expressions
subtract the parsed offset from `now`; absolute and epoch forms convert
directly (spec section 4.1). -/
def resolve (e : TimeExpression) (now : Int) : Int :=
  match e with
  | TimeExpression.Relative off => now - (off : Int)
  | TimeExpression.Absolute t => t
  | TimeExpression.EpochMillis ms => ms

/-- Modelled from the spec: `validateRange(from, to)` of the missing `time`
module (the integration tests call it as `time::is_valid_time_range`): both
strings must classify successfully and `resolve(from) < resolve(to)` against a
single shared `now` snapshot, here passed explicitly (spec section 4.1). -/
def is_valid_time_range (now : Int) (fromStr toStr : String) : Bool :=
  match classify fromStr, classify toStr with
  | some ef, some et => decide (resolve ef now < resolve et now)
  | _, _ => false

/-! ## Pagination cursor controller and streaming search façade -/

/-- Modelled from the spec: the error kinds of spec section 7 for the missing
`client` module.  `InvalidTimeRange` is the synchronous validation failure;
`Authentication`, `ApiError` and `Serialization` are fatal; `RateLimited` and
`TransientNetwork` are retried with bounded backoff. -/
inductive SearchError where
  | InvalidTimeRange
  | Authentication
  | RateLimited
  | TransientNetwork
  | ApiError (status : Nat)
  | Serialization
deriving DecidableEq, Repr

/-- Modelled from the spec: only rate-limiting and transient network failures
are retried (spec sections 4.3 and 7). -/
def isRetryable : SearchError → Bool
  | SearchError.RateLimited => true
  | SearchError.TransientNetwork => true
  | _ => false

/-- Modelled from the spec: a page is an ordered sequence of raw record
payloads plus an optional opaque continuation cursor (spec section 3). -/
structure Page (R : Type) where
  records : List R
  nextCursor : Option String
deriving DecidableEq, Repr

/-- Modelled from the spec: the small fixed cap on retry attempts per fetch
(spec section 4.3 specifies only that it is small and fixed). -/
def MAX_RETRIES : Nat := 3

/-- Modelled from the spec: exponential backoff delay in milliseconds before
retry number `attempt` (spec section 4.3 specifies only that backoff is
exponential and bounded by the attempt cap). -/
def backoffDelayMs (attempt : Nat) : Nat := 100 * 2 ^ attempt

/-- Terminal outcome of one pagination run.  `Exhausted` and `Failed` are the
spec's terminal states (section 4.3); `Starved` is a model artifact meaning
the finite fetch oracle ran out while the controller still wanted a page
(i.e. the run is a prefix of a longer one). -/
inductive Outcome where
  | Exhausted
  | Failed (e : SearchError)
  | Starved
deriving DecidableEq, Repr

/-- Result of driving the pagination controller against a fetch oracle:
the records yielded in order, the terminal outcome, the number of fetch calls
issued, and the backoff delays slept before retries. -/
structure RunResult (R : Type) where
  records : List R
  outcome : Outcome
  fetches : Nat
  delays : List Nat
deriving DecidableEq, Repr

/-- Modelled from the spec: the pagination cursor controller of spec section
4.3, driven against an oracle listing the successive responses of the page
fetcher (each fetch call consumes one oracle entry).  A successful page's
records are yielded in order; a missing `nextCursor` terminates normally; a
retryable error below the attempt cap sleeps the exponential backoff delay and
refetches; any other error fails the run immediately.  `attempts` counts the
retries already spent on the current fetch position. -/
def runController {R : Type} : List (Except SearchError (Page R)) → Nat → RunResult R
  | [], _ => ⟨[], Outcome.Starved, 0, []⟩
  | Except.ok page :: rest, _ =>
    match page.nextCursor with
    | none => ⟨page.records, Outcome.Exhausted, 1, []⟩
    | some _ =>
      let r := runController rest 0
      ⟨page.records ++ r.records, r.outcome, r.fetches + 1, r.delays⟩
  | Except.error e :: rest, attempts =>
    if isRetryable e ∧ attempts < MAX_RETRIES then
      let r := runController rest (attempts + 1)
      ⟨r.records, r.outcome, r.fetches + 1, backoffDelayMs attempts :: r.delays⟩
    else ⟨[], Outcome.Failed e, 1, []⟩

/-- Consumer view of a run: each record is an `Except.ok` element, and a failed
outcome surfaces as one final `Except.error` element after which nothing
further is yielded (spec sections 4.4 and 7). -/
def RunResult.elements {R : Type} (r : RunResult R) : List (Except SearchError R) :=
  r.records.map Except.ok ++
    (match r.outcome with
     | Outcome.Failed e => [Except.error e]
     | _ => [])

/-- Observable result of one `search` call: the synchronous error if
validation failed, the consumer-visible lazy-sequence elements, and the number
of fetch calls issued. -/
structure SearchResult (R : Type) where
  syncError : Option SearchError
  elements : List (Except SearchError R)
  fetches : Nat
deriving Repr

/-- Modelled from the spec: the streaming search façade of spec section 4.4
(`LogsClient.search` / `SpansClient.search` of the missing `client` module).
It validates `from`/`to` against one shared `now` snapshot before issuing any
request; an invalid range fails synchronously with `InvalidTimeRange` and no
fetch; otherwise the pagination controller is driven against the fetch oracle
and every failure surfaces as an element of the produced sequence. -/
def search {R : Type} (now : Int) (query fromStr toStr : String)
    (oracle : List (Except SearchError (Page R))) : SearchResult R :=
  if is_valid_time_range now fromStr toStr then
    let r := runController oracle 0
    ⟨none, r.elements, r.fetches⟩
  else ⟨some SearchError.InvalidTimeRange, [], 0⟩

/-! ## NDJSON output writer (src/output.rs) -/

/-- Buffered output sink, embedding `BufWriter<Stdout>`: `buffered` is the
not-yet-flushed tail, `flushed` is everything already written through. -/
structure Sink where
  buffered : String
  flushed : String
deriving DecidableEq, Repr

/-- Appends a string to the sink's buffer (a `write_all`). -/
def Sink.writeStr (s : Sink) (out : String) : Sink := ⟨s.buffered ++ out, s.flushed⟩

/-- Flushes the sink: the buffer is emptied into the flushed output. -/
def Sink.flush (s : Sink) : Sink := ⟨"", s.flushed ++ s.buffered⟩

/-- Embeds `NdjsonWriter::write` (src/output.rs): serializes the record as
compact JSON (`serde_json::to_writer`, abstracted as `toJson`), writes one
newline, and flushes immediately. -/
def ndjsonWrite {R : Type} (toJson : R → String) (s : Sink) (r : R) : Sink :=
  ((s.writeStr (toJson r)).writeStr "\n").flush

/-- Writes a sequence of records through `NdjsonWriter::write` in order. -/
def ndjsonWriteAll {R : Type} (toJson : R → String) (s : Sink) (rs : List R) : Sink :=
  rs.foldl (ndjsonWrite toJson) s

/-! ## Application errors and exit codes (src/error.rs) -/

/-- Embeds `AppError` (src/error.rs): the unified application error type.
Payloads are the formatted messages (or, for `Io` and `Serialization`, the
display of the wrapped error). -/
inductive AppError where
  | Auth (msg : String)
  | Api (msg : String)
  | InvalidQuery (msg : String)
  | Config (msg : String)
  | Io (msg : String)
  | Serialization (msg : String)
deriving DecidableEq, Repr

/-- Embeds `AppError::exit_code` (src/error.rs): the process exit code for
each failure mode. -/
def AppError.exit_code : AppError → Int
  | AppError.Auth _ => 2
  | AppError.Api _ => 3
  | AppError.InvalidQuery _ => 4
  | AppError.Config _ => 5
  | AppError.Io _ => 6
  | AppError.Serialization _ => 7

/-- Constructor tag of an `AppError`, used to state that distinct failure
modes receive distinct exit codes. -/
def AppError.variantTag : AppError → Nat
  | AppError.Auth _ => 0
  | AppError.Api _ => 1
  | AppError.InvalidQuery _ => 2
  | AppError.Config _ => 3
  | AppError.Io _ => 4
  | AppError.Serialization _ => 5

/-! ## Configuration loading (src/config.rs) -/

/-- Embeds the process environment as a partial map from variable name to
value; `none` models an unset variable (`std::env::var` returning `Err`). -/
def Env : Type := String → Option String

/-- Embeds `load_config` (src/config.rs): requires `DD_API_KEY` and
`DD_APP_KEY` to be set (checked in that order) and non-empty (checked in that
order, after both presence checks); `DD_SITE` is never read.  The successful
result `Configuration::new()` is embedded as `Unit`. -/
def load_config (env : Env) : Except AppError Unit :=
  match env "DD_API_KEY" with
  | none => Except.error (AppError.Config "DD_API_KEY environment variable not set")
  | some api_key =>
    match env "DD_APP_KEY" with
    | none => Except.error (AppError.Config "DD_APP_KEY environment variable not set")
    | some app_key =>
      if api_key = "" then Except.error (AppError.Config "DD_API_KEY is empty")
      else if app_key = "" then Except.error (AppError.Config "DD_APP_KEY is empty")
      else Except.ok ()

/-! ## Theorems: output writer, error codes, configuration -/

/-- Concatenation of a list of strings, in order. -/
def joinAll : List String → String
  | [] => ""
  | s :: l => s ++ joinAll l

theorem ndjsonWriteAll_flushed {R : Type} (toJson : R → String) :
    ∀ (rs : List R) (s : Sink), s.buffered = "" →
      (ndjsonWriteAll toJson s rs).flushed
        = s.flushed ++ joinAll (rs.map (fun x => toJson x ++ "\n")) ∧
      (ndjsonWriteAll toJson s rs).buffered = "" := by
  intro rs
  induction rs with
  | nil =>
    intro s hs
    simp [ndjsonWriteAll, joinAll, hs, String.append_empty]
  | cons r rs ih =>
    intro s hs
    have step : ndjsonWrite toJson s r
        = ⟨"", s.flushed ++ (toJson r ++ "\n")⟩ := by
      simp [ndjsonWrite, Sink.writeStr, Sink.flush, hs, String.empty_append,
        String.append_assoc]
    have h2 := ih (ndjsonWrite toJson s r) (by rw [step])
    refine ⟨?_, ?_⟩
    · have : (ndjsonWriteAll toJson s (r :: rs)) = ndjsonWriteAll toJson (ndjsonWrite toJson s r) rs := rfl
      rw [this, h2.1, step]
      simp [joinAll, String.append_assoc]
    · exact (show (ndjsonWriteAll toJson s (r :: rs)) = _ from rfl) ▸ h2.2

/-- C8: for every serializable record, `NdjsonWriter::write` emits exactly the
record's compact JSON serialization (abstracted as `toJson`) followed by
exactly one newline and flushes the sink, so after writing a sequence of
records the flushed bytes are the concatenation of one complete JSON line per
record and nothing is left buffered. -/
theorem C8_ndjson_writer_spec {R : Type} (toJson : R → String) (s : Sink) (r : R)
    (rs : List R) (hs : s.buffered = "") :
    ndjsonWrite toJson s r = ⟨"", s.flushed ++ (toJson r ++ "\n")⟩ ∧
    (ndjsonWriteAll toJson s rs).flushed
      = s.flushed ++ joinAll (rs.map (fun x => toJson x ++ "\n")) ∧
    (ndjsonWriteAll toJson s rs).buffered = "" := by
  refine ⟨?_, (ndjsonWriteAll_flushed toJson rs s hs).1, (ndjsonWriteAll_flushed toJson rs s hs).2⟩
  simp [ndjsonWrite, Sink.writeStr, Sink.flush, hs, String.empty_append, String.append_assoc]

/-- C8 witness: writing the two-record sequence `["a", "bc"]` with the identity
serializer from the empty sink flushes exactly the two JSON lines. -/
theorem C8_ndjson_writer_spec_witness :
    ndjsonWrite (fun x : String => x) ⟨"", ""⟩ "a" = ⟨"", "a\n"⟩ ∧
    (ndjsonWriteAll (fun x : String => x) ⟨"", ""⟩ ["a", "bc"]).flushed = "a\nbc\n" ∧
    (ndjsonWriteAll (fun x : String => x) ⟨"", ""⟩ ["a", "bc"]).buffered = "" := by
  obtain ⟨h1, h2, h3⟩ := C8_ndjson_writer_spec (fun x : String => x) ⟨"", ""⟩ "a" ["a", "bc"] rfl
  refine ⟨by rw [h1]; rfl, by rw [h2]; rfl, h3⟩

/-- C9: `AppError::exit_code` maps Auth to 2, Api to 3, InvalidQuery to 4,
Config to 5, Io to 6 and Serialization to 7; it is total, never returns 0 or
1, and distinct failure modes receive distinct exit codes. -/
theorem C9_exit_code_spec :
    (∀ m, (AppError.Auth m).exit_code = 2) ∧
    (∀ m, (AppError.Api m).exit_code = 3) ∧
    (∀ m, (AppError.InvalidQuery m).exit_code = 4) ∧
    (∀ m, (AppError.Config m).exit_code = 5) ∧
    (∀ m, (AppError.Io m).exit_code = 6) ∧
    (∀ m, (AppError.Serialization m).exit_code = 7) ∧
    (∀ e : AppError, e.exit_code ≠ 0 ∧ e.exit_code ≠ 1) ∧
    (∀ e1 e2 : AppError,
      decide (e1.exit_code = e2.exit_code) = decide (e1.variantTag = e2.variantTag)) := by
  refine ⟨fun m => rfl, fun m => rfl, fun m => rfl, fun m => rfl, fun m => rfl, fun m => rfl,
    ?_, ?_⟩
  · intro e; cases e <;> simp [AppError.exit_code]
  · intro e1 e2; cases e1 <;> cases e2 <;> rfl

/-- C10: `load_config` fails with a Config error naming the offending variable
if and only if `DD_API_KEY` or `DD_APP_KEY` is unset or empty; it checks
presence of `DD_API_KEY` before presence of `DD_APP_KEY` and the presence of
both before the emptiness of either; and the result depends only on those two
variables, so `DD_SITE` is never validated. -/
theorem C10_load_config_spec (env : Env) :
    (env "DD_API_KEY" = none →
      load_config env
        = Except.error (AppError.Config "DD_API_KEY environment variable not set")) ∧
    (∀ a, env "DD_API_KEY" = some a → env "DD_APP_KEY" = none →
      load_config env
        = Except.error (AppError.Config "DD_APP_KEY environment variable not set")) ∧
    (∀ b, env "DD_API_KEY" = some "" → env "DD_APP_KEY" = some b →
      load_config env = Except.error (AppError.Config "DD_API_KEY is empty")) ∧
    (∀ a, env "DD_API_KEY" = some a → a ≠ "" → env "DD_APP_KEY" = some "" →
      load_config env = Except.error (AppError.Config "DD_APP_KEY is empty")) ∧
    (load_config env = Except.ok () ↔
      ∃ a b, env "DD_API_KEY" = some a ∧ env "DD_APP_KEY" = some b ∧ a ≠ "" ∧ b ≠ "") ∧
    (∀ env2 : Env, env2 "DD_API_KEY" = env "DD_API_KEY" →
      env2 "DD_APP_KEY" = env "DD_APP_KEY" → load_config env2 = load_config env) := by
  refine ⟨?_, ?_, ?_, ?_, ?_, ?_⟩
  · intro h; simp [load_config, h]
  · intro a ha hb; simp [load_config, ha, hb]
  · intro b ha hb; simp [load_config, ha, hb]
  · intro a ha hne hb; simp [load_config, ha, hb, hne]
  · constructor
    · intro h
      cases hA : env "DD_API_KEY" with
      | none => simp [load_config, hA] at h
      | some a =>
        cases hB : env "DD_APP_KEY" with
        | none => simp [load_config, hA, hB] at h
        | some b =>
          by_cases hae : a = ""
          · simp [load_config, hA, hB, hae] at h
          · by_cases hbe : b = ""
            · simp [load_config, hA, hB, hae, hbe] at h
            · exact ⟨a, b, rfl, rfl, hae, hbe⟩
    · rintro ⟨a, b, hA, hB, hae, hbe⟩
      simp [load_config, hA, hB, hae, hbe]
  · intro env2 h1 h2
    unfold load_config
    rw [h1, h2]

/-- C10 witness: concrete environments exercising the unset, empty and
fully-set cases of `load_config`. -/
theorem C10_load_config_spec_witness :
    load_config (fun _ => none)
      = Except.error (AppError.Config "DD_API_KEY environment variable not set") ∧
    load_config (fun k => if k = "DD_API_KEY" then some "" else some "x")
      = Except.error (AppError.Config "DD_API_KEY is empty") ∧
    load_config (fun k => if k = "DD_API_KEY" then some "k1" else
        if k = "DD_APP_KEY" then some "k2" else none) = Except.ok () := by
  refine ⟨(C10_load_config_spec (fun _ => none)).1 rfl,
    (C10_load_config_spec _).2.2.1 "x" (by simp) (by simp),
    ((C10_load_config_spec _).2.2.2.2.1).2 ⟨"k1", "k2", by simp, by simp,
      by simp, by simp⟩⟩

/-! ## Theorems: time expression parser / validator -/

theorem takeWhile_dropWhile_of_append (p : Char → Bool) (l1 l2 : List Char)
    (h1 : l1.all p = true) (h2 : ∀ c, l2.head? = some c → p c = false) :
    (l1 ++ l2).takeWhile p = l1 ∧ (l1 ++ l2).dropWhile p = l2 := by
  induction l1 with
  | nil =>
    simp only [List.nil_append]
    cases l2 with
    | nil => simp
    | cons c t =>
      have hc : p c = false := h2 c rfl
      simp [List.takeWhile_cons, List.dropWhile_cons, hc]
  | cons a l1 ih =>
    simp only [List.all_cons, Bool.and_eq_true] at h1
    have := ih h1.2
    simp [List.takeWhile_cons, List.dropWhile_cons, h1.1, this.1, this.2]

theorem unitMillis_eq_some (u : List Char) (m : Nat) :
    unitMillis u = some m ↔
      (u = ['s'] ∧ m = 1000) ∨ (u = ['m'] ∧ m = 60000) ∨ (u = ['h'] ∧ m = 3600000) ∨
      (u = ['d'] ∧ m = 86400000) ∨ (u = ['w'] ∧ m = 604800000) ∨
      (u = ['m', 'o'] ∧ m = 2592000000) := by
  constructor
  · intro h
    unfold unitMillis at h
    split at h <;> simp_all
  · rintro (⟨rfl, rfl⟩ | ⟨rfl, rfl⟩ | ⟨rfl, rfl⟩ | ⟨rfl, rfl⟩ | ⟨rfl, rfl⟩ | ⟨rfl, rfl⟩) <;> rfl

theorem unitMillis_head_not_digit (u : List Char) (m : Nat) (h : unitMillis u = some m) :
    ∀ c, u.head? = some c → isDigitChar c = false := by
  rcases (unitMillis_eq_some u m).1 h with
    ⟨rfl, _⟩ | ⟨rfl, _⟩ | ⟨rfl, _⟩ | ⟨rfl, _⟩ | ⟨rfl, _⟩ | ⟨rfl, _⟩ <;>
    · intro c hc
      simp only [List.head?] at hc
      cases hc
      decide

theorem parseOffset_eq_some (l : List Char) (off : Nat) :
    parseOffset l = some off ↔
      ∃ ds us m, l = ds ++ us ∧ ds ≠ [] ∧ ds.all isDigitChar = true ∧
        unitMillis us = some m ∧ off = natOfDigits ds * m := by
  constructor
  · intro h
    unfold parseOffset at h
    split at h
    · exact absurd h (by simp)
    · rename_i hne
      rw [Option.map_eq_some'] at h
      obtain ⟨m, hm, hoff⟩ := h
      refine ⟨l.takeWhile isDigitChar, l.dropWhile isDigitChar, m,
        (List.takeWhile_append_dropWhile isDigitChar l).symm, hne, ?_, hm, hoff.symm⟩
      exact List.all_eq_true.2 (fun c hc => List.mem_takeWhile_imp hc)
  · rintro ⟨ds, us, m, rfl, hne, hall, hm, rfl⟩
    have hsplit := takeWhile_dropWhile_of_append isDigitChar ds us hall
      (unitMillis_head_not_digit us m hm)
    unfold parseOffset
    rw [hsplit.1, hsplit.2, hm]
    simp [hne]

theorem parseRelative_eq_some (l : List Char) (off : Nat) :
    parseRelative l = some off ↔
      (l = ['n', 'o', 'w'] ∧ off = 0) ∨
      (∃ rest, l = 'n' :: 'o' :: 'w' :: '-' :: rest ∧ parseOffset rest = some off) := by
  constructor
  · intro h
    unfold parseRelative at h
    split at h <;> simp_all
  · rintro (⟨rfl, rfl⟩ | ⟨rest, rfl, hoff⟩)
    · rfl
    · simpa [parseRelative] using hoff

theorem classify_relative_iff (s : String) (off : Nat) :
    classify s = some (TimeExpression.Relative off) ↔
      parseRelative (s.data.map Char.toLower) = some off := by
  constructor
  · intro h
    rcases hrel : parseRelative (s.data.map Char.toLower) with _ | o
    · exfalso
      simp only [classify, hrel] at h
      split at h
      · split at h <;> simp_all
      · rcases habs : parseAbsolute s.data with _ | t <;> rw [habs] at h <;> simp_all
    · simp only [classify, hrel, Option.some_inj, TimeExpression.Relative.injEq] at h
      simp_all
  · intro h
    unfold classify
    rw [h]

/-- C3: `classify` returns a Relative time expression exactly for the string
`"now"` or strings of the form `"now-<N><unit>"` with N a non-empty digit
string and unit one of s, m, h, d, w, mo, matched case-insensitively (via
lowercasing) on both the unit and the literal `now`; `N = 0` is valid and
resolves to now; and the malformed strings `"now-abc"`, `"yesterday"` and the
empty string classify as Invalid (`none`). -/
theorem C3_classify_relative_spec (s : String) (off : Nat) :
    (classify s = some (TimeExpression.Relative off) ↔
      (s.data.map Char.toLower = ['n', 'o', 'w'] ∧ off = 0) ∨
      (∃ ds u m, s.data.map Char.toLower = ['n', 'o', 'w', '-'] ++ (ds ++ u) ∧
        ds ≠ [] ∧ ds.all isDigitChar = true ∧ unitMillis u = some m ∧
        off = natOfDigits ds * m)) ∧
    classify "now-0h" = some (TimeExpression.Relative 0) ∧
    (∀ now : Int, resolve (TimeExpression.Relative 0) now = now) ∧
    classify "NOW-1H" = some (TimeExpression.Relative 3600000) ∧
    classify "now-abc" = none ∧ classify "yesterday" = none ∧ classify "" = none := by
  refine ⟨?_, by decide, fun now => by simp [resolve], by decide, by decide, by decide, by rfl⟩
  rw [classify_relative_iff, parseRelative_eq_some]
  constructor
  · rintro (⟨h1, h2⟩ | ⟨rest, hr, hoff⟩)
    · exact Or.inl ⟨h1, h2⟩
    · rcases (parseOffset_eq_some rest off).1 hoff with ⟨ds, us, m, rfl, hne, hall, hm, hoffv⟩
      exact Or.inr ⟨ds, us, m, by simpa using hr, hne, hall, hm, hoffv⟩
  · rintro (⟨h1, h2⟩ | ⟨ds, u, m, hr, hne, hall, hm, hoffv⟩)
    · exact Or.inl ⟨h1, h2⟩
    · exact Or.inr ⟨ds ++ u, by simpa using hr,
        (parseOffset_eq_some _ off).2 ⟨ds, u, m, rfl, hne, hall, hm, hoffv⟩⟩

/-- C1: for every shared `now` snapshot, `is_valid_time_range` returns true
iff both strings classify successfully and the resolved `from` instant is
strictly before the resolved `to` instant, both against that shared `now`; it
is false whenever the two strings are equal; and for every `now`,
`is_valid_time_range now "now-1h" "now"` is true while
`is_valid_time_range now "now" "now-1h"` is false. -/
theorem C1_validate_range_spec (now : Int) (fromStr toStr : String) :
    (is_valid_time_range now fromStr toStr = true ↔
      ∃ ef et, classify fromStr = some ef ∧ classify toStr = some et ∧
        resolve ef now < resolve et now) ∧
    (∀ s : String, is_valid_time_range now s s = false) ∧
    is_valid_time_range now "now-1h" "now" = true ∧
    is_valid_time_range now "now" "now-1h" = false := by
  refine ⟨?_, ?_, ?_, ?_⟩
  · cases hf : classify fromStr with
    | none => simp [is_valid_time_range, hf]
    | some ef =>
      cases ht : classify toStr with
      | none => simp [is_valid_time_range, hf, ht]
      | some et => simp [is_valid_time_range, hf, ht]
  · intro s
    cases h : classify s with
    | none => simp [is_valid_time_range, h]
    | some e => simp [is_valid_time_range, h]
  · rw [is_valid_time_range,
      show classify "now-1h" = some (TimeExpression.Relative 3600000) from by decide,
      show classify "now" = some (TimeExpression.Relative 0) from by decide]
    simp [resolve]
  · rw [is_valid_time_range,
      show classify "now-1h" = some (TimeExpression.Relative 3600000) from by decide,
      show classify "now" = some (TimeExpression.Relative 0) from by decide]
    simp [resolve]

/-- C7: for every fixed unit and fixed `now`, resolving the relative
expression `"now-<N><unit>"` is strictly decreasing in N (a larger N resolves
strictly earlier), and the unit ordering holds: `"now-1h"` resolves strictly
earlier than `"now-1m"` for the same `now`. -/
theorem C7_resolve_strict_decrease (now : Int) (u : List Char) (mu : Nat)
    (hm : unitMillis u = some mu) (n1 n2 : Nat) (h : n1 < n2) :
    resolve (TimeExpression.Relative (n2 * mu)) now
        < resolve (TimeExpression.Relative (n1 * mu)) now ∧
    classify "now-1h" = some (TimeExpression.Relative 3600000) ∧
    classify "now-1m" = some (TimeExpression.Relative 60000) ∧
    resolve (TimeExpression.Relative 3600000) now
        < resolve (TimeExpression.Relative 60000) now := by
  have hmu : 0 < mu := by
    rcases (unitMillis_eq_some u mu).1 hm with
      ⟨_, rfl⟩ | ⟨_, rfl⟩ | ⟨_, rfl⟩ | ⟨_, rfl⟩ | ⟨_, rfl⟩ | ⟨_, rfl⟩ <;> norm_num
  have hlt : n1 * mu < n2 * mu := Nat.mul_lt_mul_of_lt_of_le h (Nat.le_refl mu) hmu
  refine ⟨?_, by decide, by decide, ?_⟩
  · simp only [resolve]
    omega
  · simp only [resolve]
    omega

/-- C7 witness: with unit h (3600000 ms), offsets 2 hours versus 1 hour at
`now = 0`: the larger offset resolves strictly earlier. -/
theorem C7_resolve_strict_decrease_witness :
    resolve (TimeExpression.Relative (2 * 3600000)) 0
        < resolve (TimeExpression.Relative (1 * 3600000)) 0 :=
  (C7_resolve_strict_decrease 0 ['h'] 3600000 (by decide) 1 2 (by decide)).1

/-! ## Theorems: pagination cursor controller -/

theorem runController_ok_head_attempts {R : Type} (p : Page R)
    (tail : List (Except SearchError (Page R))) (a b : Nat) :
    runController (Except.ok p :: tail) a = runController (Except.ok p :: tail) b := by
  cases hc : p.nextCursor <;> simp [runController, hc]

theorem runController_all_ok {R : Type} (pages : List (Page R)) (last : Page R)
    (hcur : ∀ p ∈ pages, p.nextCursor.isSome = true) (hlast : last.nextCursor = none)
    (a : Nat) :
    runController ((pages ++ [last]).map Except.ok) a
      = ⟨(pages.map Page.records).flatten ++ last.records, Outcome.Exhausted,
          pages.length + 1, []⟩ := by
  induction pages generalizing a with
  | nil => simp [runController, hlast]
  | cons p ps ih =>
    obtain ⟨c, hc⟩ := Option.isSome_iff_exists.1 (hcur p (List.mem_cons_self p ps))
    have ihr := ih (fun q hq => hcur q (List.mem_cons_of_mem p hq)) 0
    rw [List.cons_append, List.map_cons]
    simp only [runController, hc, ihr]
    simp [List.append_assoc]

theorem runController_all_cursors {R : Type} (pages : List (Page R))
    (hcur : ∀ p ∈ pages, p.nextCursor.isSome = true) (a : Nat) :
    (runController (pages.map Except.ok) a).outcome = Outcome.Starved := by
  induction pages generalizing a with
  | nil => simp [runController]
  | cons p ps ih =>
    obtain ⟨c, hc⟩ := Option.isSome_iff_exists.1 (hcur p (List.mem_cons_self p ps))
    have ihr := ih (fun q hq => hcur q (List.mem_cons_of_mem p hq)) 0
    simp [runController, hc, ihr]

/-- C2: for every finite sequence of successful pages of which exactly the
last lacks a `nextCursor`, the controller yields the concatenation of the
pages' records in their original per-page order, its length is the sum of the
page lengths, and it terminates normally (`Exhausted`) with exactly one fetch
per page; absence of a cursor is the sole termination signal: if every fetched
page carries a cursor the controller never terminates normally, and a page
without a cursor terminates the run at once, ignoring the rest of the
oracle. -/
theorem C2_pagination_spec {R : Type} (pages : List (Page R)) (last : Page R)
    (hcur : ∀ p ∈ pages, p.nextCursor.isSome = true) (hlast : last.nextCursor = none) :
    (runController ((pages ++ [last]).map Except.ok) 0).records
        = (pages.map Page.records).flatten ++ last.records ∧
    (runController ((pages ++ [last]).map Except.ok) 0).records.length
        = ((pages ++ [last]).map (fun p => p.records.length)).sum ∧
    (runController ((pages ++ [last]).map Except.ok) 0).outcome = Outcome.Exhausted ∧
    (runController ((pages ++ [last]).map Except.ok) 0).fetches = pages.length + 1 ∧
    (runController (pages.map Except.ok) 0).outcome = Outcome.Starved ∧
    (∀ rest : List (Except SearchError (Page R)),
      runController (Except.ok last :: rest) 0
        = ⟨last.records, Outcome.Exhausted, 1, []⟩) := by
  have hrun := runController_all_ok pages last hcur hlast 0
  refine ⟨by rw [hrun], ?_, by rw [hrun], by rw [hrun],
    runController_all_cursors pages hcur 0, ?_⟩
  · rw [hrun]
    simp only [List.length_append, List.length_flatten, List.map_map, List.map_append,
      List.sum_append, List.map_cons, List.map_nil, List.sum_cons, List.sum_nil]
    rfl
  · intro rest
    simp [runController, hlast]

/-- Concrete pages for the C2 scenario: two pages of 50 records each carrying
a cursor. -/
def c2Pages : List (Page Nat) :=
  [⟨List.replicate 50 0, some "c1"⟩, ⟨List.replicate 50 0, some "c2"⟩]

/-- Concrete final page for the C2 scenario: 10 records and no cursor. -/
def c2Last : Page Nat := ⟨List.replicate 10 0, none⟩

/-- C2 witness: three pages of 50, 50 and 10 records where only the third
lacks a cursor yield exactly 110 records, terminate normally, and issue
exactly three fetches. -/
theorem C2_pagination_spec_witness :
    (runController ((c2Pages ++ [c2Last]).map Except.ok) 0).records.length = 110 ∧
    (runController ((c2Pages ++ [c2Last]).map Except.ok) 0).outcome = Outcome.Exhausted ∧
    (runController ((c2Pages ++ [c2Last]).map Except.ok) 0).fetches = 3 := by
  obtain ⟨-, h2, h3, h4, -, -⟩ := C2_pagination_spec c2Pages c2Last (by decide) rfl
  exact ⟨by rw [h2]; decide, h3, h4⟩

theorem runController_retryable_prefix {R : Type} (errs : List SearchError)
    (herr : ∀ e ∈ errs, isRetryable e = true) (a : Nat)
    (hcap : a + errs.length ≤ MAX_RETRIES)
    (tail : List (Except SearchError (Page R))) :
    runController (errs.map Except.error ++ tail) a
      = ⟨(runController tail (a + errs.length)).records,
         (runController tail (a + errs.length)).outcome,
         (runController tail (a + errs.length)).fetches + errs.length,
         (List.range errs.length).map (fun i => backoffDelayMs (a + i))
           ++ (runController tail (a + errs.length)).delays⟩ := by
  induction errs generalizing a with
  | nil => simp
  | cons e es ih =>
    have he : isRetryable e = true := herr e (List.mem_cons_self e es)
    have ha : a < MAX_RETRIES := by
      simp only [List.length_cons] at hcap
      omega
    have ihr := ih (fun x hx => herr x (List.mem_cons_of_mem e hx)) (a + 1)
      (by simp only [List.length_cons] at hcap ⊢; omega) 
    rw [List.map_cons, List.cons_append]
    simp only [runController, he, ha, and_self, if_pos, ihr]
    have harg : a + 1 + es.length = a + (es.length + 1) := by omega
    have hfun : ((fun i => backoffDelayMs (a + i)) ∘ fun i => i + 1)
        = fun i => backoffDelayMs (a + 1 + i) := by
      funext i
      simp only [Function.comp_apply]
      rw [Nat.add_comm i 1, ← Nat.add_assoc]
    rw [harg]
    simp [List.range_succ_eq_map, List.map_map, hfun, Nat.add_assoc]

/-- C4: during an active search, errors classified as retryable (rate-limiting
or transient network failures) occurring at most the retry-cap many times
before a successful page are invisible to the consumer — records, outcome and
consumer-visible elements match the run without those errors — with one extra
fetch and one exponential backoff delay per retry; any non-retryable error
(authentication included) is propagated immediately with no further fetch; and
exceeding the cap surfaces the retryable error as the terminal failure. -/
theorem C4_retry_spec {R : Type} (errs : List SearchError)
    (herr : ∀ e ∈ errs, isRetryable e = true) (hcap : errs.length ≤ MAX_RETRIES)
    (p : Page R) (tail : List (Except SearchError (Page R))) :
    (runController (errs.map Except.error ++ (Except.ok p :: tail)) 0).records
        = (runController (Except.ok p :: tail) 0).records ∧
    (runController (errs.map Except.error ++ (Except.ok p :: tail)) 0).outcome
        = (runController (Except.ok p :: tail) 0).outcome ∧
    (runController (errs.map Except.error ++ (Except.ok p :: tail)) 0).elements
        = (runController (Except.ok p :: tail) 0).elements ∧
    (runController (errs.map Except.error ++ (Except.ok p :: tail)) 0).fetches
        = (runController (Except.ok p :: tail) 0).fetches + errs.length ∧
    (runController (errs.map Except.error ++ (Except.ok p :: tail)) 0).delays
        = (List.range errs.length).map backoffDelayMs
            ++ (runController (Except.ok p :: tail) 0).delays ∧
    (∀ attempt : Nat, backoffDelayMs (attempt + 1) = 2 * backoffDelayMs attempt) ∧
    (∀ (e : SearchError) (rest : List (Except SearchError (Page R))) (a : Nat),
      isRetryable e = false →
        runController (Except.error e :: rest) a = ⟨[], Outcome.Failed e, 1, []⟩) ∧
    isRetryable SearchError.Authentication = false ∧
    isRetryable SearchError.RateLimited = true ∧
    isRetryable SearchError.TransientNetwork = true ∧
    (∀ e : SearchError, isRetryable e = true →
      (runController (List.replicate (MAX_RETRIES + 1) (Except.error e)
          ++ (Except.ok p :: tail)) 0).outcome = Outcome.Failed e) := by
  have hpre := runController_retryable_prefix errs herr 0 (by omega) (Except.ok p :: tail)
  have hsame := runController_ok_head_attempts p tail (0 + errs.length) 0
  refine ⟨?_, ?_, ?_, ?_, ?_, ?_, ?_, rfl, rfl, rfl, ?_⟩
  · rw [hpre, hsame]
  · rw [hpre, hsame]
  · simp only [RunResult.elements]
    rw [hpre, hsame]
  · rw [hpre, hsame]
  · rw [hpre, hsame]
    simp
  · intro attempt
    simp [backoffDelayMs, Nat.pow_succ]
    ring
  · intro e rest a he
    simp [runController, he]
  · intro e he
    have hrep : List.replicate (MAX_RETRIES + 1) (Except.error e : Except SearchError (Page R))
        = (List.replicate MAX_RETRIES e).map Except.error ++ [Except.error e] := by
      rw [List.map_replicate, List.replicate_succ']
    rw [hrep, List.append_assoc]
    have hpre2 := runController_retryable_prefix (List.replicate MAX_RETRIES e)
      (fun x hx => by rw [List.eq_of_mem_replicate hx]; exact he) 0
      (by simp) ([Except.error e] ++ (Except.ok p :: tail))
    rw [hpre2]
    simp only [List.singleton_append, List.length_replicate, zero_add]
    simp [runController, Nat.lt_irrefl]

/-- C4 witness: a fetch failing with a rate-limit status twice and then
succeeding yields all records of the subsequent pages with no error element
visible to the consumer. -/
theorem C4_retry_spec_witness :
    (runController [Except.error SearchError.RateLimited,
        Except.error SearchError.RateLimited,
        Except.ok (⟨[1, 2], some "c"⟩ : Page Nat),
        Except.ok ⟨[3], none⟩] 0).elements
      = [Except.ok 1, Except.ok 2, Except.ok 3] := by
  have h := (C4_retry_spec [SearchError.RateLimited, SearchError.RateLimited]
    (by decide) (by decide) (⟨[1, 2], some "c"⟩ : Page Nat) [Except.ok ⟨[3], none⟩]).2.2.1
  exact h.trans (by rfl)

/-- C5: a permanent (non-retryable) error occurring after a page has been
yielded leaves the already-delivered records intact, surfaces as the next
element the consumer pulls, puts the run in the terminal failed state, and
causes no further fetch: exactly two fetches happen however long the oracle
continues; concretely a 401-equivalent (Authentication) failure on the second
page yields the first page's records, then the Authentication error, and no
third fetch. -/
theorem C5_permanent_error_spec {R : Type} (p : Page R) (c : String)
    (hc : p.nextCursor = some c) (e : SearchError) (he : isRetryable e = false)
    (rest : List (Except SearchError (Page R))) :
    runController (Except.ok p :: Except.error e :: rest) 0
      = ⟨p.records, Outcome.Failed e, 2, []⟩ ∧
    (runController (Except.ok p :: Except.error e :: rest) 0).elements
      = p.records.map Except.ok ++ [Except.error e] ∧
    isRetryable SearchError.Authentication = false := by
  have h1 : runController (Except.ok p :: Except.error e :: rest) 0
      = ⟨p.records, Outcome.Failed e, 2, []⟩ := by
    simp [runController, hc, he]
  refine ⟨h1, ?_, rfl⟩
  rw [h1]
  simp [RunResult.elements]

/-- C5 witness: an Authentication failure on the second fetch after a first
page of records `[1, 2]`: those records stay delivered, the run fails
terminally, and only two fetches occur although a third page was available. -/
theorem C5_permanent_error_spec_witness :
    runController [Except.ok (⟨[1, 2], some "c"⟩ : Page Nat),
        Except.error SearchError.Authentication, Except.ok ⟨[9], none⟩] 0
      = ⟨[1, 2], Outcome.Failed SearchError.Authentication, 2, []⟩ :=
  (C5_permanent_error_spec (⟨[1, 2], some "c"⟩ : Page Nat) "c" rfl
    SearchError.Authentication rfl [Except.ok ⟨[9], none⟩]).1

/-- C6: a search whose from/to strings do not form a valid range fails
synchronously with `InvalidTimeRange` before any fetch — zero fetch calls and
no sequence elements — and this is the only synchronous failure point: when
the range is valid the synchronous error is `none` and every failure surfaces
only as an element of the produced sequence, which is exactly the pagination
controller's consumer view. -/
theorem C6_sync_validation_spec {R : Type} (now : Int) (query fromStr toStr : String)
    (oracle : List (Except SearchError (Page R))) :
    (is_valid_time_range now fromStr toStr = false →
      search now query fromStr toStr oracle
        = ⟨some SearchError.InvalidTimeRange, [], 0⟩) ∧
    (is_valid_time_range now fromStr toStr = true →
      (search now query fromStr toStr oracle).syncError = none ∧
      (search now query fromStr toStr oracle).elements
          = (runController oracle 0).elements ∧
      (search now query fromStr toStr oracle).fetches
          = (runController oracle 0).fetches) := by
  constructor
  · intro h
    simp [search, h]
  · intro h
    simp [search, h]

/-- C6 witness: the inverted range `"now"` to `"now-1h"` fails synchronously
with `InvalidTimeRange` and issues zero fetches although the oracle holds a
page. -/
theorem C6_sync_validation_spec_witness :
    search 0 "*" "now" "now-1h" [Except.ok (⟨[1], none⟩ : Page Nat)]
      = ⟨some SearchError.InvalidTimeRange, [], 0⟩ :=
  (C6_sync_validation_spec 0 "*" "now" "now-1h"
    [Except.ok (⟨[1], none⟩ : Page Nat)]).1 (by decide)
